import Mathlib

/-!
Verification of the `goog.i18n.TimeZone` time-zone resolution engine
(WeScheme's bundled Closure-library module, `src/unnamed/part_002`).

The JavaScript module is embedded shallowly:

* a `TimeZone` object is a record of its four private fields;
* a JavaScript `Date` argument is represented by its UTC epoch time in
  milliseconds (`dateMs : Int`); the source's round trip
  `Date.UTC(getUTCFullYear(), ..., getUTCMinutes())` reconstructs the
  instant with seconds and milliseconds dropped, i.e. it truncates the
  epoch time down to a whole minute, which is `dateMs - Int.emod dateMs 60000`;
* JavaScript numeric division `timeInMs / 3600000` is exact rational
  division, embedded into `ℚ`;
* `Math.abs` is `Int.natAbs`, `Math.floor` on the nonnegative values that
  arise here is `Nat` division, `%` is `Nat` modulus;
* the `parts.push(...); parts.join('')` idiom is `String.join` of the list
  of parts, where a pushed number is stringified with `toString`;
* the out-of-bounds array read `transitions_[index - 1]` that JavaScript
  would answer with `undefined` (it can only happen on an odd-length
  transitions table, a documented precondition violation) is totalised
  with `List.getD _ _ 0`; the safety theorem for C9 shows the read is in
  bounds under the documented invariant.
-/

namespace GoogI18n

/-- Milliseconds per hour constant (`goog.i18n.TimeZone.MILLISECONDS_PER_HOUR_`). -/
def MILLISECONDS_PER_HOUR : Int := 3600 * 1000

/-- The `goog.i18n.TimeZone` object: its four private fields
`timeZoneId_`, `standardOffset_`, `tzNames_`, `transitions_`. -/
structure TimeZone where
  timeZoneId : String
  standardOffset : Int
  tzNames : List String
  transitions : List Int
deriving Repr, DecidableEq

/-- The time-zone information object accepted by `createTimeZone`
(fields `id`, `std_offset`, `names`, `transitions`). -/
structure TimeZoneData where
  id : String
  std_offset : Int
  names : List String
  transitions : List Int
deriving Repr, DecidableEq

/-- `goog.i18n.TimeZone.createTimeZone`, object branch (the numeric branch
delegates to `createSimpleTimeZone`, embedded separately below):
copies `id` and `names`/`transitions`, negates `std_offset`. -/
def createTimeZone (timeZoneData : TimeZoneData) : TimeZone :=
  { timeZoneId := timeZoneData.id
    standardOffset := -timeZoneData.std_offset
    tzNames := timeZoneData.names
    transitions := timeZoneData.transitions }

/-- Modelled from the spec: the external string-padding helper
`goog.string.padNumber(value, length)` (spec §1 lists it as an external
collaborator, "the string-padding helper assumed available as a utility");
all rendered fields are "zero-padded" to the given width (spec §4.5), i.e.
the decimal rendering of the nonnegative number is left-padded with `'0'`
up to the requested width. -/
def padNumber (n : Nat) (w : Nat) : String :=
  let s := toString n
  String.mk (List.replicate (w - s.length) '0') ++ s

/-- `goog.i18n.TimeZone.composeGMTString_`. -/
def composeGMTString (offset : Int) : String :=
  let sign : String := if offset ≤ 0 then "+" else "-"
  let a : Nat := offset.natAbs
  String.join ["GMT", sign, padNumber (a / 60 % 100) 2, ":", padNumber (a % 60) 2]

/-- `goog.i18n.TimeZone.composePosixTimeZoneID_`. -/
def composePosixTimeZoneID (offset : Int) : String :=
  if offset = 0 then "Etc/GMT"
  else
    let sign : String := if offset < 0 then "-" else "+"
    let a : Nat := offset.natAbs
    let parts : List String := ["Etc/GMT", sign, toString (a / 60 % 100)]
    let r : Nat := a % 60
    String.join (if r ≠ 0 then parts ++ [":", padNumber r 2] else parts)

/-- `goog.i18n.TimeZone.composeUTCString_`. -/
def composeUTCString (offset : Int) : String :=
  if offset = 0 then "UTC"
  else
    let sign : String := if offset < 0 then "+" else "-"
    let a : Nat := offset.natAbs
    let parts : List String := ["UTC", sign, toString (a / 60 % 100)]
    let r : Nat := a % 60
    String.join (if r ≠ 0 then parts ++ [":", toString r] else parts)

/-- `goog.i18n.TimeZone.createSimpleTimeZone_` (also the numeric branch of
`createTimeZone`). -/
def createSimpleTimeZone (timeZoneOffsetInMinutes : Int) : TimeZone :=
  let str := composeUTCString timeZoneOffsetInMinutes
  { timeZoneId := composePosixTimeZoneID timeZoneOffsetInMinutes
    standardOffset := timeZoneOffsetInMinutes
    tzNames := [str, str]
    transitions := [] }

/-- The `timeInMs` computed by `getDaylightAdjustment`:
`Date.UTC(date.getUTCFullYear(), ..., date.getUTCMinutes())` rebuilds the
instant from its UTC calendar fields down to the minute, i.e. truncates the
epoch milliseconds to a whole minute (`Int.emod` is nonnegative, so this
is truncation toward minus infinity, matching calendar fields of
pre-1970 instants as well). -/
def truncToMinute (dateMs : Int) : Int :=
  dateMs - dateMs % 60000

/-- The `timeInHours` value of `getDaylightAdjustment`: JavaScript number
division `timeInMs / MILLISECONDS_PER_HOUR_`, an exact rational. -/
def timeInHours (dateMs : Int) : ℚ :=
  (truncToMinute dateMs : ℚ) / (MILLISECONDS_PER_HOUR : ℚ)

/-- The scanning loop of `getDaylightAdjustment`:
`while (index < transitions.length && timeInHours >= transitions[index]) index += 2`;
returns the final value of `index`. -/
def dstIndex (transitions : List Int) (t : ℚ) (index : Nat) : Nat :=
  if h : index < transitions.length then
    if ((transitions.get ⟨index, h⟩ : Int) : ℚ) ≤ t then
      dstIndex transitions t (index + 2)
    else index
  else index
termination_by transitions.length - index
decreasing_by omega

/-- `goog.i18n.TimeZone.prototype.getDaylightAdjustment`. -/
def getDaylightAdjustment (tz : TimeZone) (dateMs : Int) : Int :=
  let index := dstIndex tz.transitions (timeInHours dateMs) 0
  if index = 0 then 0 else tz.transitions.getD (index - 1) 0

/-- `goog.i18n.TimeZone.prototype.getOffset`. -/
def getOffset (tz : TimeZone) (dateMs : Int) : Int :=
  tz.standardOffset - getDaylightAdjustment tz dateMs

/-- `goog.i18n.TimeZone.prototype.isDaylightTime`. -/
def isDaylightTime (tz : TimeZone) (dateMs : Int) : Bool :=
  decide (getDaylightAdjustment tz dateMs > 0)

/-- `goog.i18n.TimeZone.prototype.getGMTString`. -/
def getGMTString (tz : TimeZone) (dateMs : Int) : String :=
  composeGMTString (getOffset tz dateMs)

/-- `goog.i18n.TimeZone.prototype.getRFCTimeZoneString`. -/
def getRFCTimeZoneString (tz : TimeZone) (dateMs : Int) : String :=
  let offset : Int := -(getOffset tz dateMs)
  let sign : String := if offset < 0 then "-" else "+"
  let a : Nat := offset.natAbs
  String.join [sign, padNumber (a / 60 % 100) 2, padNumber (a % 60) 2]

/-- `goog.i18n.TimeZone.NameType` enumeration values. -/
def NameType.STD_SHORT_NAME : Nat := 0

/-- `goog.i18n.TimeZone.NameType.STD_LONG_NAME`. -/
def NameType.STD_LONG_NAME : Nat := 1

/-- `goog.i18n.TimeZone.NameType.DLT_SHORT_NAME`. -/
def NameType.DLT_SHORT_NAME : Nat := 2

/-- `goog.i18n.TimeZone.NameType.DLT_LONG_NAME`. -/
def NameType.DLT_LONG_NAME : Nat := 3

/-- `goog.i18n.TimeZone.prototype.getShortName` (the in-bounds index read
`tzNames_[...]` totalised with `getD _ _ ""`). -/
def getShortName (tz : TimeZone) (dateMs : Int) : String :=
  tz.tzNames.getD
    (if isDaylightTime tz dateMs then NameType.DLT_SHORT_NAME else NameType.STD_SHORT_NAME) ""

/-- `goog.i18n.TimeZone.prototype.getLongName`. -/
def getLongName (tz : TimeZone) (dateMs : Int) : String :=
  tz.tzNames.getD
    (if isDaylightTime tz dateMs then NameType.DLT_LONG_NAME else NameType.STD_LONG_NAME) ""

/-- `goog.i18n.TimeZone.prototype.getTimeZoneId`. -/
def getTimeZoneId (tz : TimeZone) : String :=
  tz.timeZoneId

/-! ### Spec-side reference definitions

These are written from the words of the spec/claims, to be compared with
the embedded code. -/

/-- The transitions table read as the list of its `(point, adjustment)`
pairs (spec §3: "flat ordered sequence of paired integers"). A trailing
unpaired element (precondition violation) is dropped. -/
def transPairs : List Int → List (Int × Int)
  | p :: a :: rest => (p, a) :: transPairs rest
  | _ => []

/-- Written from claim C1's words: the adjustment value paired with the
last transition point that is ≤ the instant's hour value, and `0` when no
transition point qualifies. -/
def lastAdjLE (pairs : List (Int × Int)) (t : ℚ) : Int :=
  match (pairs.filter fun pa => decide ((pa.1 : ℚ) ≤ t)).getLast? with
  | some pa => pa.2
  | none => 0

/-- Written from claim C8's words: the reference adjustment computation on
an instant already truncated to whole hours since the epoch. -/
def refAdjustmentAtHour (transitions : List Int) (hour : Int) : Int :=
  let index := dstIndex transitions ((hour : Int) : ℚ) 0
  if index = 0 then 0 else transitions.getD (index - 1) 0

/-- The instant truncated to whole hours since the epoch (UTC), dropping
minutes, seconds and milliseconds; `/` on `Int` is Euclidean division,
which for the positive divisor is floor division, matching truncation of
the UTC calendar fields also for pre-1970 instants. -/
def wholeHoursUTC (dateMs : Int) : Int :=
  dateMs / MILLISECONDS_PER_HOUR

/-! ### Lemmas about the scanning loop -/

theorem dstIndex_stop (transitions : List Int) (t : ℚ) (index : Nat)
    (h : ¬ index < transitions.length) : dstIndex transitions t index = index := by
  rw [dstIndex]
  simp [h]

theorem dstIndex_gt (transitions : List Int) (t : ℚ) (index : Nat)
    (h : index < transitions.length)
    (hgt : ¬ ((transitions.get ⟨index, h⟩ : Int) : ℚ) ≤ t) :
    dstIndex transitions t index = index := by
  rw [dstIndex]
  rw [dif_pos h, if_neg hgt]

theorem dstIndex_le (transitions : List Int) (t : ℚ) (index : Nat)
    (h : index < transitions.length)
    (hle : ((transitions.get ⟨index, h⟩ : Int) : ℚ) ≤ t) :
    dstIndex transitions t index = dstIndex transitions t (index + 2) := by
  conv_lhs => rw [dstIndex]
  rw [dif_pos h, if_pos hle]

/-- The loop never decreases the index. -/
theorem le_dstIndex (transitions : List Int) (t : ℚ) :
    ∀ index, index ≤ dstIndex transitions t index := by
  have H : ∀ k index, transitions.length - index ≤ k →
      index ≤ dstIndex transitions t index := by
    intro k
    induction k with
    | zero =>
      intro index hk
      rw [dstIndex_stop _ _ _ (by omega)]
    | succ k ih =>
      intro index hk
      by_cases h : index < transitions.length
      · by_cases hle : ((transitions.get ⟨index, h⟩ : Int) : ℚ) ≤ t
        · rw [dstIndex_le _ _ _ h hle]
          have := ih (index + 2) (by omega)
          omega
        · rw [dstIndex_gt _ _ _ h hle]
      · rw [dstIndex_stop _ _ _ h]
  intro index
  exact H (transitions.length - index) index le_rfl

/-- Shifting the loop across one leading `(point, adjustment)` pair. -/
theorem dstIndex_shift (x y : Int) (l : List Int) (t : ℚ) :
    ∀ index, dstIndex (x :: y :: l) t (index + 2) = dstIndex l t index + 2 := by
  have H : ∀ k index, l.length - index ≤ k →
      dstIndex (x :: y :: l) t (index + 2) = dstIndex l t index + 2 := by
    intro k
    induction k with
    | zero =>
      intro index hk
      have h1 : ¬ index < l.length := by omega
      have h2 : ¬ index + 2 < (x :: y :: l).length := by
        simp only [List.length_cons]
        omega
      rw [dstIndex_stop _ _ _ h2, dstIndex_stop _ _ _ h1]
    | succ k ih =>
      intro index hk
      by_cases h1 : index < l.length
      · have h2 : index + 2 < (x :: y :: l).length := by
          simp only [List.length_cons]
          omega
        have hget : (x :: y :: l).get ⟨index + 2, h2⟩ = l.get ⟨index, h1⟩ := rfl
        by_cases hle : ((l.get ⟨index, h1⟩ : Int) : ℚ) ≤ t
        · rw [dstIndex_le _ _ _ h2 (by rw [hget]; exact hle),
            dstIndex_le _ _ _ h1 hle]
          exact ih (index + 2) (by omega)
        · rw [dstIndex_gt _ _ _ h2 (by rw [hget]; exact hle),
            dstIndex_gt _ _ _ h1 hle]
      · have h2 : ¬ index + 2 < (x :: y :: l).length := by
          simp only [List.length_cons]
          omega
        rw [dstIndex_stop _ _ _ h2, dstIndex_stop _ _ _ h1]
  intro index
  exact H (l.length - index) index le_rfl

/-- On an even-length table, the loop keeps the index even and never runs
past the table. -/
theorem dstIndex_even_le (transitions : List Int) (t : ℚ)
    (heven : transitions.length % 2 = 0) :
    ∀ index, index % 2 = 0 → index ≤ transitions.length →
      dstIndex transitions t index % 2 = 0 ∧
        dstIndex transitions t index ≤ transitions.length := by
  have H : ∀ k index, transitions.length - index ≤ k →
      index % 2 = 0 → index ≤ transitions.length →
      dstIndex transitions t index % 2 = 0 ∧
        dstIndex transitions t index ≤ transitions.length := by
    intro k
    induction k with
    | zero =>
      intro index hk hpar hle
      rw [dstIndex_stop _ _ _ (by omega)]
      exact ⟨hpar, hle⟩
    | succ k ih =>
      intro index hk hpar hle
      by_cases h : index < transitions.length
      · by_cases hcmp : ((transitions.get ⟨index, h⟩ : Int) : ℚ) ≤ t
        · rw [dstIndex_le _ _ _ h hcmp]
          exact ih (index + 2) (by omega) (by omega) (by omega)
        · rw [dstIndex_gt _ _ _ h hcmp]
          exact ⟨hpar, hle⟩
      · rw [dstIndex_stop _ _ _ h]
        exact ⟨hpar, hle⟩
  intro index
  exact H (transitions.length - index) index le_rfl

/-- Because all transition points are integers, the loop sees only the
floor of the hour value. -/
theorem dstIndex_floor_eq (transitions : List Int) (t : ℚ) :
    ∀ index, dstIndex transitions t index =
      dstIndex transitions ((⌊t⌋ : Int) : ℚ) index := by
  have H : ∀ k index, transitions.length - index ≤ k →
      dstIndex transitions t index =
        dstIndex transitions ((⌊t⌋ : Int) : ℚ) index := by
    intro k
    induction k with
    | zero =>
      intro index hk
      rw [dstIndex_stop _ _ _ (by omega), dstIndex_stop _ _ _ (by omega)]
    | succ k ih =>
      intro index hk
      by_cases h : index < transitions.length
      · have hiff : ((transitions.get ⟨index, h⟩ : Int) : ℚ) ≤ t ↔
            ((transitions.get ⟨index, h⟩ : Int) : ℚ) ≤ ((⌊t⌋ : Int) : ℚ) := by
          rw [Int.cast_le, Int.le_floor]
        by_cases hcmp : ((transitions.get ⟨index, h⟩ : Int) : ℚ) ≤ t
        · rw [dstIndex_le _ _ _ h hcmp, dstIndex_le _ _ _ h (hiff.mp hcmp)]
          exact ih (index + 2) (by omega)
        · rw [dstIndex_gt _ _ _ h hcmp,
            dstIndex_gt _ _ _ h (fun hc => hcmp (hiff.mpr hc))]
      · rw [dstIndex_stop _ _ _ h, dstIndex_stop _ _ _ h]
  intro index
  exact H (transitions.length - index) index le_rfl

/-- The body of `getDaylightAdjustment`, as a function of the transitions
table and the rational hour value. -/
def adjFromIndex (transitions : List Int) (t : ℚ) : Int :=
  let index := dstIndex transitions t 0
  if index = 0 then 0 else transitions.getD (index - 1) 0

theorem getDaylightAdjustment_def (tz : TimeZone) (dateMs : Int) :
    getDaylightAdjustment tz dateMs = adjFromIndex tz.transitions (timeInHours dateMs) := rfl

/-- Induction principle consuming the flat table two entries at a time. -/
theorem twoStepInduction {P : List Int → Prop} (h0 : P [])
    (h1 : ∀ x, P [x]) (h2 : ∀ x y l, P l → P (x :: y :: l)) : ∀ l, P l
  | [] => h0
  | [x] => h1 x
  | x :: y :: l => h2 x y l (twoStepInduction h0 h1 h2 l)

theorem dstIndex_cons_zero (q : Int) (l : List Int) (t : ℚ)
    (hgt : ¬ ((q : Int) : ℚ) ≤ t) : dstIndex (q :: l) t 0 = 0 :=
  dstIndex_gt _ _ 0 (by simp) hgt

theorem dstIndex_cons_ne_zero (q : Int) (l : List Int) (t : ℚ)
    (hle : ((q : Int) : ℚ) ≤ t) : dstIndex (q :: l) t 0 ≠ 0 := by
  rw [dstIndex_le _ _ 0 (by simp) hle]
  have := le_dstIndex (q :: l) t (0 + 2)
  omega

/-- The loop result agrees with the claim's description: the adjustment of
the last transition point ≤ the hour value, or `0` when there is none. -/
theorem adjFromIndex_eq_lastAdjLE (t : ℚ) :
    ∀ transitions : List Int, transitions.length % 2 = 0 →
      List.Sorted (· ≤ ·) ((transPairs transitions).map Prod.fst) →
      adjFromIndex transitions t = lastAdjLE (transPairs transitions) t := by
  refine twoStepInduction ?_ ?_ ?_
  · intro _ _
    unfold adjFromIndex
    rw [dstIndex_stop _ _ _ (by simp)]
    rfl
  · intro x h _
    simp at h
  · intro p a rest ih heven hsorted
    have heven' : rest.length % 2 = 0 := by
      simp only [List.length_cons] at heven
      omega
    have hmap : (transPairs (p :: a :: rest)).map Prod.fst =
        p :: (transPairs rest).map Prod.fst := rfl
    rw [hmap] at hsorted
    have hhead : ∀ b ∈ (transPairs rest).map Prod.fst, p ≤ b :=
      (List.sorted_cons.mp hsorted).1
    have hsorted' : List.Sorted (· ≤ ·) ((transPairs rest).map Prod.fst) :=
      (List.sorted_cons.mp hsorted).2
    by_cases hle : ((p : Int) : ℚ) ≤ t
    · have e1 : dstIndex (p :: a :: rest) t 0 = dstIndex rest t 0 + 2 :=
        (dstIndex_le _ _ 0 (by simp) hle).trans (dstIndex_shift p a rest t 0)
      have hfilter_cons :
          (transPairs (p :: a :: rest)).filter (fun pa => decide ((pa.1 : ℚ) ≤ t)) =
            (p, a) :: (transPairs rest).filter (fun pa => decide ((pa.1 : ℚ) ≤ t)) := by
        simp [transPairs, hle]
      by_cases hz : dstIndex rest t 0 = 0
      · have hfilter_rest :
            (transPairs rest).filter (fun pa => decide ((pa.1 : ℚ) ≤ t)) = [] := by
          cases rest with
          | nil => rfl
          | cons q rest' =>
            have hq : ¬ ((q : Int) : ℚ) ≤ t := by
              intro hc
              exact dstIndex_cons_ne_zero q rest' t hc hz
            cases rest' with
            | nil => simp at heven'
            | cons b rest'' =>
              refine List.filter_eq_nil_iff.mpr ?_
              intro pa hpa
              have hq' : ∀ c ∈ (transPairs (q :: b :: rest'')).map Prod.fst, q ≤ c := by
                intro c hc
                rw [show (transPairs (q :: b :: rest'')).map Prod.fst =
                    q :: (transPairs rest'').map Prod.fst from rfl] at hc
                rcases List.mem_cons.mp hc with h | h
                · omega
                · exact (List.sorted_cons.mp hsorted').1 c h
              have : q ≤ pa.1 := hq' pa.1 (List.mem_map_of_mem Prod.fst hpa)
              simp only [decide_eq_true_eq]
              intro hc
              exact hq (le_trans (by exact_mod_cast Int.cast_le.mpr this) hc)
        unfold adjFromIndex
        rw [e1, hz]
        unfold lastAdjLE
        rw [hfilter_cons, hfilter_rest]
        rfl
      · have hne :
            (transPairs rest).filter (fun pa => decide ((pa.1 : ℚ) ≤ t)) ≠ [] := by
          cases rest with
          | nil =>
            exact absurd (dstIndex_stop [] t 0 (by simp)) hz
          | cons q rest' =>
            have hq : ((q : Int) : ℚ) ≤ t := by
              by_contra hc
              exact hz (dstIndex_cons_zero q rest' t hc)
            cases rest' with
            | nil => simp at heven'
            | cons b rest'' =>
              have hmem : (q, b) ∈
                  (transPairs (q :: b :: rest'')).filter
                    (fun pa => decide ((pa.1 : ℚ) ≤ t)) := by
                apply List.mem_filter.mpr
                exact ⟨by simp [transPairs], by simpa using hq⟩
              intro hnil
              rw [hnil] at hmem
              exact absurd hmem (List.not_mem_nil _)
        have hIH := ih heven' hsorted'
        obtain ⟨j, hj⟩ : ∃ j, dstIndex rest t 0 = j + 1 :=
          ⟨dstIndex rest t 0 - 1, by omega⟩
        have lhs_eq : adjFromIndex (p :: a :: rest) t = adjFromIndex rest t := by
          unfold adjFromIndex
          rw [e1, hj, if_neg (by omega), if_neg (by omega)]
          show (p :: a :: rest).getD (j + 1 + 2 - 1) 0 = rest.getD (j + 1 - 1) 0
          rw [show j + 1 + 2 - 1 = j + 1 + 1 from rfl]
          rw [List.getD_cons_succ, List.getD_cons_succ]
          rfl
        have rhs_eq : lastAdjLE (transPairs (p :: a :: rest)) t =
            lastAdjLE (transPairs rest) t := by
          unfold lastAdjLE
          rw [hfilter_cons]
          rcases hf : (transPairs rest).filter (fun pa => decide ((pa.1 : ℚ) ≤ t)) with
            _ | ⟨pb, fl⟩
          · exact absurd hf hne
          · rw [hf, List.getLast?_cons_cons]
        rw [lhs_eq, rhs_eq, hIH]
    · have e1 : dstIndex (p :: a :: rest) t 0 = 0 :=
        dstIndex_cons_zero p (a :: rest) t hle
      have hfilter :
          (transPairs (p :: a :: rest)).filter (fun pa => decide ((pa.1 : ℚ) ≤ t)) = [] := by
        refine List.filter_eq_nil_iff.mpr ?_
        intro pa hpa
        rw [show transPairs (p :: a :: rest) = (p, a) :: transPairs rest from rfl] at hpa
        simp only [decide_eq_true_eq]
        rcases List.mem_cons.mp hpa with h | h
        · rw [h]
          exact hle
        · intro hc
          have : p ≤ pa.1 := hhead pa.1 (List.mem_map_of_mem Prod.fst h)
          exact hle (le_trans (by exact_mod_cast Int.cast_le.mpr this) hc)
      unfold adjFromIndex
      rw [e1]
      unfold lastAdjLE
      rw [hfilter]
      rfl

/-- The floor of the code's fractional hour value is the instant's whole
hour since the epoch: the minute-level truncation performed by the code
does not move the instant across an hour boundary. -/
theorem floor_timeInHours (dateMs : Int) : ⌊timeInHours dateMs⌋ = wholeHoursUTC dateMs := by
  have h : timeInHours dateMs = ((truncToMinute dateMs : Int) : ℚ) / ((3600000 : Nat) : ℚ) := by
    norm_num [timeInHours, MILLISECONDS_PER_HOUR]
  rw [h, Rat.floor_intCast_div_natCast]
  unfold truncToMinute wholeHoursUTC MILLISECONDS_PER_HOUR
  omega

/-- A zone with an empty transitions table never has a daylight adjustment. -/
theorem getDaylightAdjustment_nil (tz : TimeZone) (h : tz.transitions = [])
    (dateMs : Int) : getDaylightAdjustment tz dateMs = 0 := by
  rw [getDaylightAdjustment_def]
  unfold adjFromIndex
  rw [h, dstIndex_stop _ _ _ (by simp)]
  rfl

/-- Values at odd positions of an even-length flat table are exactly the
adjustment components of its pairs. -/
theorem getD_odd_mem (l : List Int) (hl : l.length % 2 = 0) :
    ∀ j, j % 2 = 1 → j < l.length → l.getD j 0 ∈ (transPairs l).map Prod.snd := by
  induction l using twoStepInduction with
  | h0 =>
    intro j _ hj
    simp at hj
  | h1 x =>
    intro j _ _
    simp at hl
  | h2 x y rest ih =>
    intro j hodd hj
    have hl' : rest.length % 2 = 0 := by
      simp only [List.length_cons] at hl
      omega
    match j, hodd with
    | 1, _ =>
      simp [transPairs]
    | (j' + 2), _ =>
      have : (x :: y :: rest).getD (j' + 2) 0 = rest.getD j' 0 := by
        rw [show j' + 2 = j' + 1 + 1 from rfl, List.getD_cons_succ, List.getD_cons_succ]
      rw [this]
      have hmem := ih hl' j' (by omega) (by simp only [List.length_cons] at hj; omega)
      rw [show transPairs (x :: y :: rest) = (x, y) :: transPairs rest from rfl]
      simp only [List.map_cons, List.mem_cons]
      exact Or.inr hmem

/-! ### Claims -/

/-- C1: For every TimeZone whose transitions table is an even-length
sequence of `(point, adjustment)` pairs sorted ascending by point, and for
every instant, `getDaylightAdjustment` returns the adjustment value paired
with the last transition point that is ≤ the instant's hour value, and
returns 0 when no transition point qualifies (the instant precedes the
first transition, or the table is empty) — `lastAdjLE` is precisely that
description, including the return of `0` on an empty filter result. -/
theorem claim_C1_adjustment_is_last_le (tz : TimeZone) (dateMs : Int)
    (heven : tz.transitions.length % 2 = 0)
    (hsorted : List.Sorted (· ≤ ·) ((transPairs tz.transitions).map Prod.fst)) :
    getDaylightAdjustment tz dateMs =
      lastAdjLE (transPairs tz.transitions) (timeInHours dateMs) := by
  rw [getDaylightAdjustment_def]
  exact adjFromIndex_eq_lastAdjLE _ _ heven hsorted

/-- A small concrete zone used by witnesses: descriptor with transitions
`[1, 60, 5, 0]` (daylight +60 from hour 1, back to standard at hour 5). -/
def tzTest : TimeZone :=
  createTimeZone
    { id := "Test/Zone", std_offset := 60
      names := ["TST", "Test Standard Time", "TDT", "Test Daylight Time"]
      transitions := [1, 60, 5, 0] }

theorem claim_C1_witness :
    tzTest.transitions.length % 2 = 0 ∧
      List.Sorted (· ≤ ·) ((transPairs tzTest.transitions).map Prod.fst) ∧
      getDaylightAdjustment tzTest 10800000 =
        lastAdjLE (transPairs tzTest.transitions) (timeInHours 10800000) :=
  ⟨by decide, by decide,
    claim_C1_adjustment_is_last_le tzTest 10800000 (by decide) (by decide)⟩

/-- C2: `getOffset(instant) = standardOffset − getDaylightAdjustment(instant)`
(west-of-Greenwich-positive convention preserved from `standardOffset`),
and `isDaylightTime(instant)` holds exactly when the adjustment is
strictly positive. -/
theorem claim_C2_offset_and_daylight (tz : TimeZone) (dateMs : Int) :
    getOffset tz dateMs = tz.standardOffset - getDaylightAdjustment tz dateMs ∧
      (isDaylightTime tz dateMs = true ↔ getDaylightAdjustment tz dateMs > 0) :=
  ⟨rfl, by simp [isDaylightTime]⟩

/-- C8: For every transitions table (whose points are integers — whole
epoch-hours — by the data model) and every instant, `getDaylightAdjustment`
agrees with the reference computation that first truncates the instant to
whole hours; in particular the result depends on the instant only through
`wholeHoursUTC`, so it never depends on the seconds or milliseconds. -/
theorem claim_C8_hour_truncation_refinement (tz : TimeZone) (dateMs : Int) :
    getDaylightAdjustment tz dateMs =
      refAdjustmentAtHour tz.transitions (wholeHoursUTC dateMs) := by
  rw [getDaylightAdjustment_def]
  unfold adjFromIndex refAdjustmentAtHour
  rw [dstIndex_floor_eq tz.transitions (timeInHours dateMs) 0, floor_timeInHours]

/-- C9: under the even-length and non-decreasing preconditions, the final
array read `transitions_[index - 1]` of `getDaylightAdjustment` is within
bounds whenever it is performed (the in-loop read `transitions_[index]` is
guarded by `index < length` in the loop condition itself), and the
returned value is one of the adjustment values literally present at the
odd positions of the table, or 0. -/
theorem claim_C9_bounds_and_membership (tz : TimeZone) (dateMs : Int)
    (heven : tz.transitions.length % 2 = 0)
    (_hsorted : List.Sorted (· ≤ ·) ((transPairs tz.transitions).map Prod.fst)) :
    (dstIndex tz.transitions (timeInHours dateMs) 0 = 0 ∨
      dstIndex tz.transitions (timeInHours dateMs) 0 - 1 < tz.transitions.length) ∧
      (getDaylightAdjustment tz dateMs = 0 ∨
        getDaylightAdjustment tz dateMs ∈ (transPairs tz.transitions).map Prod.snd) := by
  have hmain := dstIndex_even_le tz.transitions (timeInHours dateMs) heven 0
    (by omega) (by omega)
  by_cases hz : dstIndex tz.transitions (timeInHours dateMs) 0 = 0
  · refine ⟨Or.inl hz, Or.inl ?_⟩
    rw [getDaylightAdjustment_def]
    unfold adjFromIndex
    rw [hz]
    rfl
  · have hbound : dstIndex tz.transitions (timeInHours dateMs) 0 - 1 <
        tz.transitions.length := by omega
    refine ⟨Or.inr hbound, Or.inr ?_⟩
    have hval : getDaylightAdjustment tz dateMs =
        tz.transitions.getD (dstIndex tz.transitions (timeInHours dateMs) 0 - 1) 0 := by
      rw [getDaylightAdjustment_def]
      unfold adjFromIndex
      rw [if_neg hz]
    rw [hval]
    exact getD_odd_mem tz.transitions heven _ (by omega) hbound

theorem claim_C9_witness :
    tzTest.transitions.length % 2 = 0 ∧
      List.Sorted (· ≤ ·) ((transPairs tzTest.transitions).map Prod.fst) ∧
      ((dstIndex tzTest.transitions (timeInHours 0) 0 = 0 ∨
        dstIndex tzTest.transitions (timeInHours 0) 0 - 1 < tzTest.transitions.length) ∧
        (getDaylightAdjustment tzTest 0 = 0 ∨
          getDaylightAdjustment tzTest 0 ∈ (transPairs tzTest.transitions).map Prod.snd)) :=
  ⟨by decide, by decide, claim_C9_bounds_and_membership tzTest 0 (by decide) (by decide)⟩

/-- C5: the GMT-string composer returns `"GMT"`, a sign that is `'+'` for
offsets ≤ 0 and `'-'` otherwise, then `floor(|offset|/60) mod 100` and
`|offset| mod 60`, both zero-padded to two digits, separated by a colon;
in particular offset +330 renders `"GMT-05:30"`. -/
theorem claim_C5_gmt_string :
    (∀ offset : Int, composeGMTString offset =
      "GMT" ++ (if offset ≤ 0 then "+" else "-") ++
        padNumber (offset.natAbs / 60 % 100) 2 ++ ":" ++
        padNumber (offset.natAbs % 60) 2) ∧
      composeGMTString 330 = "GMT-05:30" :=
  ⟨fun _ => rfl, by decide⟩

/-- C3 counterexample: constructing from the bare offset −120 and calling
`getTimeZoneId()` yields `"Etc/GMT-2"`, not `"Etc/GMT+2"` as the claim
states (the code uses sign `'-'` for negative offsets, not `'+'`). -/
theorem claim_C3_counterexample :
    getTimeZoneId (createSimpleTimeZone (-120)) = "Etc/GMT-2" ∧
      getTimeZoneId (createSimpleTimeZone (-120)) ≠ "Etc/GMT+2" := by
  decide

/-- C3 (amended): the synthesized POSIX-style id is `"Etc/GMT"` for offset
0, and otherwise `"Etc/GMT"`, a sign that is `'-'` when the input offset is
negative and `'+'` otherwise, the whole hours reduced modulo 100, and a
`":MM"` zero-padded minutes suffix only when the remainder is non-zero;
constructing from bare offset −120 then calling `getTimeZoneId()` yields
`"Etc/GMT-2"`. -/
theorem claim_C3_amended_posix_id :
    (∀ offset : Int, getTimeZoneId (createSimpleTimeZone offset) =
      (if offset = 0 then "Etc/GMT"
       else "Etc/GMT" ++ (if offset < 0 then "-" else "+") ++
         toString (offset.natAbs / 60 % 100) ++
         (if offset.natAbs % 60 ≠ 0 then ":" ++ padNumber (offset.natAbs % 60) 2
          else ""))) ∧
      getTimeZoneId (createSimpleTimeZone (-120)) = "Etc/GMT-2" := by
  constructor
  · intro offset
    show composePosixTimeZoneID offset = _
    unfold composePosixTimeZoneID
    by_cases h0 : offset = 0
    · rw [if_pos h0, if_pos h0]
    · rw [if_neg h0, if_neg h0]
      dsimp only
      by_cases hr : offset.natAbs % 60 ≠ 0
      · rw [if_pos hr, if_pos hr]
        exact String.append_assoc _ ":" (padNumber (offset.natAbs % 60) 2)
      · rw [if_neg hr, if_neg hr]
        exact (String.append_empty _).symm
  · decide

/-- C6 counterexample: for offset 6000 (100 hours) the code renders
`"UTC-0"` (the hour count is reduced modulo 100), not `"UTC-100"` as the
claim's unreduced "hour count" implies. -/
theorem claim_C6_counterexample :
    composeUTCString 6000 = "UTC-0" ∧ composeUTCString 6000 ≠ "UTC-100" := by
  decide

/-- C6 (amended): the UTC-string composer returns exactly `"UTC"` for
offset 0, and otherwise `"UTC"`, a sign that is `'+'` when the offset is
negative and `'-'` otherwise, then the hour count reduced modulo 100
(unpadded), with a `":MM"` minute suffix (unpadded) only when
`|offset| mod 60` is non-zero; offset −120 yields `"UTC+2"`, and a
zero-offset bare construction carries the UTC string `"UTC"` with no sign
or suffix as both of its names. -/
theorem claim_C6_amended_utc_string :
    (∀ offset : Int, composeUTCString offset =
      (if offset = 0 then "UTC"
       else "UTC" ++ (if offset < 0 then "+" else "-") ++
         toString (offset.natAbs / 60 % 100) ++
         (if offset.natAbs % 60 ≠ 0 then ":" ++ toString (offset.natAbs % 60)
          else ""))) ∧
      composeUTCString (-120) = "UTC+2" ∧
      (createSimpleTimeZone 0).tzNames = ["UTC", "UTC"] := by
  refine ⟨?_, by decide, by decide⟩
  intro offset
  unfold composeUTCString
  by_cases h0 : offset = 0
  · rw [if_pos h0, if_pos h0]
  · rw [if_neg h0, if_neg h0]
    dsimp only
    by_cases hr : offset.natAbs % 60 ≠ 0
    · rw [if_pos hr, if_pos hr]
      exact String.append_assoc _ ":" (toString (offset.natAbs % 60))
    · rw [if_neg hr, if_neg hr]
      exact (String.append_empty _).symm

/-- The RFC formatter as a function of the resolved offset value. -/
theorem getRFCTimeZoneString_eq (tz : TimeZone) (dateMs : Int) (o : Int)
    (h : getOffset tz dateMs = o) :
    getRFCTimeZoneString tz dateMs =
      (if -o < 0 then "-" else "+") ++ padNumber ((-o).natAbs / 60 % 100) 2 ++
        padNumber ((-o).natAbs % 60) 2 := by
  unfold getRFCTimeZoneString
  rw [h]
  rfl

/-- The concrete zone of C4's scenario: descriptor `std_offset` −330, so
the stored west-positive `standardOffset` is +330 and, with no
transitions, `getOffset` resolves to +330 at every instant. -/
def tz330 : TimeZone :=
  createTimeZone
    { id := "Test/Plus330", std_offset := -330, names := ["A", "B"], transitions := [] }

theorem getOffset_tz330 (dateMs : Int) : getOffset tz330 dateMs = 330 := by
  unfold getOffset
  rw [getDaylightAdjustment_nil tz330 rfl dateMs]
  decide

/-- C4 counterexample: at a TimeZone/instant whose resolved offset is
+330 minutes (west-positive), `getRFCTimeZoneString` returns `"-0530"`
(the negated offset −330 is negative, so the sign is `'-'`), not
`"+0530"` as the claim states. -/
theorem claim_C4_counterexample :
    getOffset tz330 0 = 330 ∧ getRFCTimeZoneString tz330 0 = "-0530" ∧
      getRFCTimeZoneString tz330 0 ≠ "+0530" := by
  refine ⟨getOffset_tz330 0, ?_, ?_⟩
  · rw [getRFCTimeZoneString_eq tz330 0 330 (getOffset_tz330 0)]
    decide
  · rw [getRFCTimeZoneString_eq tz330 0 330 (getOffset_tz330 0)]
    decide

/-- C4 (amended): for a TimeZone and instant whose resolved offset
`getOffset(instant)` is +330 minutes (stored west-positive),
`getRFCTimeZoneString` — which negates the offset to conventional
east-positive, renders sign `'-'` when the negated value is negative else
`'+'`, then zero-padded `HHMM` with no colon — returns `"-0530"`. -/
theorem claim_C4_amended_rfc_330 (tz : TimeZone) (dateMs : Int)
    (h : getOffset tz dateMs = 330) :
    getRFCTimeZoneString tz dateMs = "-0530" := by
  rw [getRFCTimeZoneString_eq tz dateMs 330 h]
  decide

theorem claim_C4_witness :
    getOffset tz330 0 = 330 ∧ getRFCTimeZoneString tz330 0 = "-0530" :=
  ⟨getOffset_tz330 0, claim_C4_amended_rfc_330 tz330 0 (getOffset_tz330 0)⟩

/-- For any value below 100, the two-digit zero-padded rendering has
exactly two characters, all decimal digits. -/
theorem padNumber_two (n : Nat) (h : n < 100) :
    (padNumber n 2).data.length = 2 ∧ (padNumber n 2).data.all Char.isDigit = true := by
  have H : ∀ m : Nat, m < 100 →
      (padNumber m 2).data.length = 2 ∧ (padNumber m 2).data.all Char.isDigit = true := by
    decide
  exact H n h

/-- Shape of a sign character followed by two two-digit fields. -/
theorem sign_two_fields_shape (s : String) (c : Char) (hs : s.data = [c])
    (p1 p2 : String) (hl1 : p1.data.length = 2) (hd1 : p1.data.all Char.isDigit = true)
    (hl2 : p2.data.length = 2) (hd2 : p2.data.all Char.isDigit = true) :
    (s ++ p1 ++ p2).length = 5 ∧ (s ++ p1 ++ p2).data.take 1 = [c] ∧
      ((s ++ p1 ++ p2).data.drop 1).all Char.isDigit = true := by
  have hdata : (s ++ p1 ++ p2).data = c :: (p1.data ++ p2.data) := by
    simp [String.data_append, hs]
  refine ⟨?_, ?_, ?_⟩
  · show (s ++ p1 ++ p2).data.length = 5
    rw [hdata, List.length_cons, List.length_append, hl1, hl2]
  · rw [hdata]
    rfl
  · rw [hdata]
    simp [List.all_append, hd1, hd2]

/-- C10: for every TimeZone and instant, `getRFCTimeZoneString` returns a
string of exactly five characters — a sign (`'+'` or `'-'`) followed by
four decimal digits — because the hour field is reduced modulo 100 and
both fields are zero-padded to width 2. -/
theorem claim_C10_rfc_fixed_width (tz : TimeZone) (dateMs : Int) :
    (getRFCTimeZoneString tz dateMs).length = 5 ∧
      ((getRFCTimeZoneString tz dateMs).data.take 1 = ['+'] ∨
        (getRFCTimeZoneString tz dateMs).data.take 1 = ['-']) ∧
      ((getRFCTimeZoneString tz dateMs).data.drop 1).all Char.isDigit = true := by
  rw [getRFCTimeZoneString_eq tz dateMs (getOffset tz dateMs) rfl]
  generalize -(getOffset tz dateMs) = q
  obtain ⟨hl1, hd1⟩ := padNumber_two (q.natAbs / 60 % 100) (Nat.mod_lt _ (by norm_num))
  obtain ⟨hl2, hd2⟩ := padNumber_two (q.natAbs % 60) (by omega)
  by_cases h : q < 0
  · have hshape := sign_two_fields_shape (if q < 0 then "-" else "+") '-'
      (by rw [if_pos h]) _ _ hl1 hd1 hl2 hd2
    exact ⟨hshape.1, Or.inr hshape.2.1, hshape.2.2⟩
  · have hshape := sign_two_fields_shape (if q < 0 then "-" else "+") '+'
      (by rw [if_neg h]) _ _ hl1 hd1 hl2 hd2
    exact ⟨hshape.1, Or.inl hshape.2.1, hshape.2.2⟩

/-- The descriptor of C7's concrete scenario. -/
def laDescriptor (h0 h1 : Int) : TimeZoneData :=
  { id := "America/Los_Angeles", std_offset := 480
    names := ["PST", "Pacific Standard Time", "PDT", "Pacific Daylight Time"]
    transitions := [h0, 60, h1, 0] }

/-- C7: for the Los Angeles descriptor with transitions `[h0,60, h1,0]`
(`h0 < h1`, epoch-hours), every instant with hour value in `[h0, h1)`
yields `getOffset = standardOffset − 60`, `isDaylightTime`, and short name
`"PDT"`; every instant with hour value before `h0` yields standard time
and short name `"PST"`. -/
theorem claim_C7_la_scenario (h0 h1 dateMs : Int) (_hlt : h0 < h1) :
    ((h0 : ℚ) ≤ timeInHours dateMs → timeInHours dateMs < (h1 : ℚ) →
      getOffset (createTimeZone (laDescriptor h0 h1)) dateMs =
          (createTimeZone (laDescriptor h0 h1)).standardOffset - 60 ∧
        isDaylightTime (createTimeZone (laDescriptor h0 h1)) dateMs = true ∧
        getShortName (createTimeZone (laDescriptor h0 h1)) dateMs = "PDT") ∧
      (timeInHours dateMs < (h0 : ℚ) →
        isDaylightTime (createTimeZone (laDescriptor h0 h1)) dateMs = false ∧
          getShortName (createTimeZone (laDescriptor h0 h1)) dateMs = "PST") := by
  have htr : (createTimeZone (laDescriptor h0 h1)).transitions = [h0, 60, h1, 0] := rfl
  constructor
  · intro ht1 ht2
    have hadj : getDaylightAdjustment (createTimeZone (laDescriptor h0 h1)) dateMs = 60 := by
      rw [getDaylightAdjustment_def]
      unfold adjFromIndex
      rw [htr]
      have e : dstIndex [h0, 60, h1, 0] (timeInHours dateMs) 0 = 0 + 2 := by
        rw [dstIndex_le _ _ 0 (by simp) ht1]
        exact dstIndex_gt _ _ (0 + 2) (by simp) (not_le.mpr ht2)
      rw [e]
      rfl
    refine ⟨?_, ?_, ?_⟩
    · unfold getOffset
      rw [hadj]
    · unfold isDaylightTime
      rw [hadj]
      rfl
    · unfold getShortName isDaylightTime
      rw [hadj]
      rfl
  · intro ht
    have hadj : getDaylightAdjustment (createTimeZone (laDescriptor h0 h1)) dateMs = 0 := by
      rw [getDaylightAdjustment_def]
      unfold adjFromIndex
      rw [htr]
      rw [dstIndex_cons_zero h0 [60, h1, 0] (timeInHours dateMs) (not_le.mpr ht)]
      rfl
    constructor
    · unfold isDaylightTime
      rw [hadj]
      rfl
    · unfold getShortName isDaylightTime
      rw [hadj]
      rfl

theorem claim_C7_witness :
    (100 : Int) < 200 ∧ ((100 : Int) : ℚ) ≤ timeInHours 540000000 ∧
      timeInHours 540000000 < ((200 : Int) : ℚ) ∧
      isDaylightTime (createTimeZone (laDescriptor 100 200)) 540000000 = true ∧
      getShortName (createTimeZone (laDescriptor 100 200)) 540000000 = "PDT" := by
  have he : timeInHours 540000000 = 150 := by
    unfold timeInHours truncToMinute MILLISECONDS_PER_HOUR
    norm_num
  have h1 : ((100 : Int) : ℚ) ≤ timeInHours 540000000 := by
    rw [he]
    norm_num
  have h2 : timeInHours 540000000 < ((200 : Int) : ℚ) := by
    rw [he]
    norm_num
  have hmain := (claim_C7_la_scenario 100 200 540000000 (by decide)).1 h1 h2
  exact ⟨by decide, h1, h2, hmain.2.1, hmain.2.2⟩

end GoogI18n
